import Mathlib

/-!
Unix bootstrap layer of the engine daemon (cmd/dockerd/daemon_unix.go).

A shallow embedding of the functions of `daemon_unix.go` together with the
properties stated for them.  Collaborators that live outside the file (the
kernel probe, the path join of the standard library, the resolver, the port
allocator, the umask system call) are explicit arguments or explicit state.
-/

namespace Dockerd

/-! ## Data model -/

/-- The fields of `linux.Config` that the daemon fills in. -/
structure LinuxConfig where
  Shim : String
  Runtime : String
  RuntimeRoot : String
  ShimDebug : Bool
  ShimNoMountNS : Bool
deriving DecidableEq, Repr

/-- The constructors of `libcontainerd.RemoteOption` used by the daemon. An
option is recorded as the constructor call that produced it. -/
inductive RemoteOption where
  | WithOOMScore (score : Int)
  | WithPlugin (name : String) (conf : LinuxConfig)
  | WithLogLevel (lvl : String)
  | WithRemoteAddr (addr : String)
  | WithStartDaemon (start : Bool)
deriving DecidableEq, Repr

/-- The fields of the daemon configuration (`cli.Config`) read in this file. -/
structure Config where
  OOMScoreAdjust : Int
  Debug : Bool
  ContainerdAddr : String
  Root : String
  ExecRoot : String
deriving DecidableEq, Repr

/-- What `getPlatformRemoteOptions` takes from other packages: the two binary
names of package `daemon`, `filepath.Join` and the kernel probe
`kernel.CheckKernelVersion` of the running host. -/
structure Platform where
  DefaultShimBinary : String
  DefaultRuntimeBinary : String
  filepathJoin : String → String → String
  CheckKernelVersion : Int → Int → Int → Bool

/-- A kernel version as reported by the probe: kernel, major, minor. -/
structure VersionInfo where
  Kernel : Int
  Major : Int
  Minor : Int
deriving DecidableEq, Repr

/-- Modelled from the spec: `kernel.CompareKernelVersion` is not part of
`daemon_unix.go`. Versions are ordered component by component, kernel first,
then major, then minor; the result is negative, zero or positive. -/
def CompareKernelVersion (a b : VersionInfo) : Int :=
  if a.Kernel < b.Kernel then -1
  else if a.Kernel > b.Kernel then 1
  else if a.Major < b.Major then -1
  else if a.Major > b.Major then 1
  else if a.Minor < b.Minor then -1
  else if a.Minor > b.Minor then 1
  else 0

/-- Modelled from the spec: `kernel.CheckKernelVersion` is not part of
`daemon_unix.go`. The probe is a pure function of the observed version: it
answers false exactly when the observed version is strictly below the
requested one. -/
def CheckKernelVersion (observed : VersionInfo) (k major minor : Int) : Bool :=
  if CompareKernelVersion observed ⟨k, major, minor⟩ < 0 then false else true

/-! ## getPlatformRemoteOptions -/

/-- The method `DaemonCli.getPlatformRemoteOptions`: the option slice and the
error it returns (`none` is the nil error). -/
def getPlatformRemoteOptions (p : Platform) (cfg : Config) :
    List RemoteOption × Option String :=
  let noNewNS : Bool := if !p.CheckKernelVersion 3 18 0 then true else false
  let opts : List RemoteOption :=
    [ RemoteOption.WithOOMScore cfg.OOMScoreAdjust,
      RemoteOption.WithPlugin "linux"
        { Shim := p.DefaultShimBinary
          Runtime := p.DefaultRuntimeBinary
          RuntimeRoot := p.filepathJoin cfg.Root "runc"
          ShimDebug := cfg.Debug
          ShimNoMountNS := noNewNS } ]
  let opts := if cfg.Debug then opts ++ [RemoteOption.WithLogLevel "debug"] else opts
  let opts :=
    if cfg.ContainerdAddr ≠ "" then
      opts ++ [RemoteOption.WithRemoteAddr cfg.ContainerdAddr]
    else
      opts ++ [RemoteOption.WithStartDaemon true]
  (opts, none)

/-- The method `DaemonCli.getSwarmRunRoot`. -/
def getSwarmRunRoot (p : Platform) (cfg : Config) : String :=
  p.filepathJoin cfg.ExecRoot "swarm"

/-- The function `getDaemonConfDir`; its argument is ignored. -/
def getDaemonConfDir (_ : String) : String := "/etc/balena"

/-- Recognises a `WithRemoteAddr` option. -/
def RemoteOption.isRemoteAddr : RemoteOption → Bool
  | .WithRemoteAddr _ => true
  | _ => false

/-- Recognises a `WithStartDaemon` option. -/
def RemoteOption.isStartDaemon : RemoteOption → Bool
  | .WithStartDaemon _ => true
  | _ => false

/-- A connectivity option: remote address or start-embedded-supervisor. -/
def RemoteOption.isConnectivity (o : RemoteOption) : Bool :=
  o.isRemoteAddr || o.isStartDaemon

/-- An identity or security option: OOM score or plugin registration. -/
def RemoteOption.isIdentity : RemoteOption → Bool
  | .WithOOMScore _ => true
  | .WithPlugin _ _ => true
  | _ => false

/-- The configuration carried by each plugin-registration option, in order. -/
def pluginConfigs (opts : List RemoteOption) : List (String × LinuxConfig) :=
  opts.filterMap fun o =>
    match o with
    | .WithPlugin n c => some (n, c)
    | _ => none

/-! ## allocateDaemonPort -/

/-- A `net.IP`: the bytes of the address. -/
abbrev IP := List Nat

/-- The errors `allocateDaemonPort` returns: the error of `net.SplitHostPort`
or of `strconv.Atoi` passed on unchanged, and the two errors it formats
itself, kept with the values given to `fmt.Errorf`. -/
inductive AllocError where
  | splitHostPort (err : String)
  | atoi (err : String)
  | lookup (host : String)
  | allocate (port : Int) (cause : String)
deriving DecidableEq, Repr

/-- The message of an error, as `fmt.Errorf` formats it. -/
def AllocError.Error : AllocError → String
  | .splitHostPort err => err
  | .atoi err => err
  | .lookup host => "failed to lookup " ++ host ++ " address in host specification"
  | .allocate port cause =>
    "failed to allocate daemon listening port " ++ toString port ++ " (err: " ++ cause ++ ")"

/-- The standard-library functions `allocateDaemonPort` calls. `LookupIP`
returns the address list and the error side by side, as in Go. -/
structure NetLib where
  SplitHostPort : String → Except String (String × String)
  Atoi : String → Except String Int
  ParseIP : String → Option IP
  LookupIP : String → List IP × Option String

/-- Modelled from the spec: the port-allocation registry
(`portallocator.Get()`) is not part of `daemon_unix.go`. It holds the
reservations made so far, each an IP, a protocol and a port. -/
structure PortAllocator where
  reserved : List (IP × String × Int)
deriving DecidableEq, Repr

/-- Modelled from the spec: the registry query
`(IP, protocol, port) → reservation | conflict error`. A request for a triple
that is already reserved is rejected and changes nothing; any other request
is granted and recorded. The first component is the Go result pair
`(port, err)`. -/
def PortAllocator.RequestPort (pa : PortAllocator) (ip : IP) (proto : String) (port : Int) :
    (Int × Option String) × PortAllocator :=
  if (ip, proto, port) ∈ pa.reserved then
    ((0, some "port is already allocated"), pa)
  else
    ((port, none), { reserved := pa.reserved ++ [(ip, proto, port)] })

/-- One call to the registry as seen from outside: what was asked and whether
it was granted. -/
structure PortRequest where
  ip : IP
  proto : String
  port : Int
  granted : Bool
deriving DecidableEq, Repr

/-- The process-wide state `allocateDaemonPort` acts on: the registry, and a
record of the registry requests and DNS lookups made so far, oldest first. -/
structure World where
  registry : PortAllocator
  requests : List PortRequest
  lookups : List String
deriving DecidableEq, Repr

/-- The call `pa.RequestPort(ip, proto, port)` on the global registry. -/
def World.RequestPort (w : World) (ip : IP) (proto : String) (port : Int) :
    (Int × Option String) × World :=
  let r := w.registry.RequestPort ip proto port
  (r.1, { w with
    registry := r.2
    requests := w.requests ++ [⟨ip, proto, port, r.1.2.isNone⟩] })

/-- The call `net.LookupIP(host)`. -/
def World.LookupIP (w : World) (lib : NetLib) (host : String) :
    (List IP × Option String) × World :=
  (lib.LookupIP host, { w with lookups := w.lookups ++ [host] })

/-- The loop `for _, hostIP := range hostIPs` of `allocateDaemonPort`,
followed by its final `return nil`. -/
def requestPorts (intPort : Int) : List IP → World → Option AllocError × World
  | [], w => (none, w)
  | hostIP :: rest, w =>
    let r := w.RequestPort hostIP "tcp" intPort
    match r.1.2 with
    | some err => (some (.allocate intPort err), r.2)
    | none => requestPorts intPort rest r.2

/-- The function `allocateDaemonPort`: the error returned (`none` is nil) and
the state it leaves. -/
def allocateDaemonPort (lib : NetLib) (w : World) (addr : String) :
    Option AllocError × World :=
  match lib.SplitHostPort addr with
  | .error err => (some (.splitHostPort err), w)
  | .ok (host, port) =>
    match lib.Atoi port with
    | .error err => (some (.atoi err), w)
    | .ok intPort =>
      match lib.ParseIP host with
      | some parsedIP => requestPorts intPort [parsedIP] w
      | none =>
        let r := w.LookupIP lib host
        match r.1.2 with
        | some _ => (some (.lookup host), r.2)
        | none => requestPorts intPort r.1.1 r.2

/-- The registry after it has granted, one after the other, a request for
each of the given IPs; `none` when it rejects one of them. -/
def PortAllocator.grantAll (pa : PortAllocator) (proto : String) (port : Int) :
    List IP → Option PortAllocator
  | [] => some pa
  | ip :: ips =>
    match (pa.RequestPort ip proto port).1.2 with
    | none => (pa.RequestPort ip proto port).2.grantAll proto port ips
    | some _ => none

/-- The IP list a host resolves to: the host itself when it is a literal IP,
the answer of the resolver otherwise. -/
def resolvedIPs (lib : NetLib) (host : String) : List IP :=
  match lib.ParseIP host with
  | some ip => [ip]
  | none => (lib.LookupIP host).1

/-! ### A library instance for concrete runs -/

/-- Index of the last occurrence of a character. -/
def lastIndex (cs : List Char) (c : Char) : Option Nat :=
  match cs.reverse.indexOf? c with
  | some i => some (cs.length - 1 - i)
  | none => none

/-- A model of `net.SplitHostPort` on ASCII input: the port follows the last
colon, and a host in square brackets may itself hold colons. -/
def splitHostPort (hostport : String) : Except String (String × String) :=
  let s := hostport.toList
  let missingPort := "missing port in address"
  let tooManyColons := "too many colons in address"
  let finish (host : List Char) (i j k : Nat) : Except String (String × String) :=
    if '[' ∈ s.drop j then .error "unexpected [ in address"
    else if ']' ∈ s.drop k then .error "unexpected ] in address"
    else .ok (String.mk host, String.mk (s.drop (i + 1)))
  match lastIndex s ':' with
  | none => .error missingPort
  | some i =>
    if s.head? = some '[' then
      match s.indexOf? ']' with
      | none => .error "missing ] in address"
      | some e =>
        if e + 1 = s.length then .error missingPort
        else if e + 1 = i then finish ((s.take e).drop 1) i 1 (e + 1)
        else if s[e + 1]? = some ':' then .error tooManyColons
        else .error missingPort
    else
      let host := s.take i
      if ':' ∈ host then .error tooManyColons else finish host i 0 0

/-- The value of a string of decimal digits. -/
def digitsValue (ds : List Char) : Nat :=
  ds.foldl (fun a c => 10 * a + (c.toNat - '0'.toNat)) 0

/-- A model of `strconv.Atoi` for a 64-bit `int`: an optional sign followed
by at least one decimal digit. -/
def atoi (str : String) : Except String Int :=
  let cs := str.toList
  let body : Bool × List Char :=
    match cs with
    | '-' :: r => (true, r)
    | '+' :: r => (false, r)
    | _ => (false, cs)
  if body.2 = [] ∨ ¬ body.2.all Char.isDigit then .error "invalid syntax"
  else
    let v : Int := if body.1 then -(digitsValue body.2 : Int) else (digitsValue body.2 : Int)
    if v < -(2 : Int) ^ 63 ∨ (2 : Int) ^ 63 - 1 < v then .error "value out of range" else .ok v

/-- The 16-byte form `net.IPv4(a, b, c, d)`. -/
def IPv4 (a b c d : Nat) : IP :=
  [0, 0, 0, 0, 0, 0, 0, 0, 0, 0, 255, 255, a, b, c, d]

/-- Splits a character list at every dot. -/
def splitDots : List Char → List (List Char)
  | [] => [[]]
  | c :: cs =>
    match splitDots cs with
    | [] => [[c]]
    | f :: fs => if c = '.' then [] :: f :: fs else (c :: f) :: fs

/-- A model of `net.ParseIP` restricted to dotted-decimal IPv4 literals: four
fields of decimal digits, each at most 255. Every other string, an IPv6
literal included, is taken as a host name. -/
def parseIP (str : String) : Option IP :=
  match splitDots str.toList with
  | [a, b, c, d] =>
    if [a, b, c, d].all (fun f => f ≠ [] ∧ f.all Char.isDigit ∧ digitsValue f ≤ 255) then
      some (IPv4 (digitsValue a) (digitsValue b) (digitsValue c) (digitsValue d))
    else none
  | _ => none

/-- The loopback address `::1`. -/
def IPv6loopback : IP := [0, 0, 0, 0, 0, 0, 0, 0, 0, 0, 0, 0, 0, 0, 0, 1]

/-- A resolver that knows `localhost` only. -/
def localResolver (host : String) : List IP × Option String :=
  if host = "localhost" then ([IPv4 127 0 0 1, IPv6loopback], none)
  else ([], some ("lookup " ++ host ++ ": no such host"))

/-- A resolver that answers every name with an empty list and no error. -/
def silentResolver (_ : String) : List IP × Option String := ([], none)

/-- The library instance used for concrete runs, over a given resolver. -/
def sampleNet (resolver : String → List IP × Option String) : NetLib where
  SplitHostPort := splitHostPort
  Atoi := atoi
  ParseIP := parseIP
  LookupIP := resolver

/-- A process state with nothing reserved and nothing recorded. -/
def World.empty : World := ⟨⟨[]⟩, [], []⟩

/-! ## wrapListeners -/

/-- A `net.Listener`: a raw listener, or a `hack.MalformedHostHeaderOverride`
around another listener. -/
inductive Listener where
  | raw (id : Nat)
  | MalformedHostHeaderOverride (inner : Listener)
deriving DecidableEq, Repr

/-- A run-time panic of the Go program. -/
inductive Panic where
  | indexOutOfRange (index len : Nat)
deriving DecidableEq, Repr

/-- The assignment `ls[i] = &hack.MalformedHostHeaderOverride{ls[i]}`, which
panics when `i` is not an index of `ls`. -/
def wrapAt (ls : List Listener) (i : Nat) : Except Panic (List Listener) :=
  match ls[i]? with
  | some l => .ok (ls.set i (.MalformedHostHeaderOverride l))
  | none => .error (.indexOutOfRange i ls.length)

/-- The function `wrapListeners`: the slice it returns, or the panic it
raises. -/
def wrapListeners (proto : String) (ls : List Listener) : Except Panic (List Listener) :=
  if proto = "unix" then
    wrapAt ls 0
  else if proto = "fd" then
    (List.range ls.length).foldlM wrapAt ls
  else
    .ok ls

/-! ## setDefaultUmask -/

/-- The system call `unix.Umask` on the process mask taken as explicit state:
it stores the new mask and returns the previous one. The result is the pair
of the returned old mask and the mask now in force. -/
def Umask (current newmask : Nat) : Nat × Nat := (current, newmask)

/-- The error of `setDefaultUmask`, kept with the two values given to
`fmt.Errorf("failed to set umask: expected %#o, got %#o", ...)`. -/
inductive UmaskError where
  | mismatch (expected got : Nat)
deriving DecidableEq, Repr

/-- The function `setDefaultUmask` run on a process whose mask is `initial`.
Between its two `Umask` calls the rest of the process may change the mask:
`between` maps the mask left by the first call to the mask found by the
second one, and is the identity when no other mask-setter runs. The result
is the returned error (`none` is nil) and the final process mask. -/
def setDefaultUmask (between : Nat → Nat) (initial : Nat) : Option UmaskError × Nat :=
  let desiredUmask := 0o22
  let first := Umask initial desiredUmask
  let second := Umask (between first.2) desiredUmask
  let umask := second.1
  if umask ≠ desiredUmask then
    (some (.mismatch desiredUmask umask), second.2)
  else
    (none, second.2)

/-- The mask returned by the second, read-back `Umask` call of
`setDefaultUmask`. -/
def readBackUmask (between : Nat → Nat) (initial : Nat) : Nat :=
  (Umask (between (Umask initial 0o22).2) 0o22).1

/-! ## setupConfigReloadTrap -/

/-- An `os.Signal`. `SIGHUP` is the signal the trap subscribes to. -/
inductive Signal where
  | SIGHUP
  | SIGUSR2
  | other (num : Nat)
deriving DecidableEq, Repr

/-- A channel of signals made by `make(chan os.Signal, capacity)`. Signals are
numbered in the order the runtime raises them, and the channel holds these
numbers: `buffer` is its content, oldest first, and `accepted` lists every
signal that was ever put on it. -/
structure Chan where
  capacity : Nat
  buffer : List Nat
  accepted : List Nat
deriving DecidableEq, Repr

/-- A goroutine of the daemon process.
* `main` runs code from outside this file; it is the kind of goroutine that
  calls `setupConfigReloadTrap`, and it never calls `cli.reloadConfig()`.
* `reloadLoop c running` runs the function literal
  `func() { for range c { cli.reloadConfig() } }` on channel number `c`; it
  either waits in `for range c` (`running = none`) or executes the call
  `cli.reloadConfig()` made for signal `k` (`running = some k`). -/
inductive Goroutine where
  | main
  | reloadLoop (c : Nat) (running : Option Nat)
deriving DecidableEq, Repr

/-- One call of `cli.reloadConfig()`: the signal it was made for and the
number of the goroutine that made it. -/
structure Invocation where
  signal : Nat
  task : Nat
deriving DecidableEq, Repr

/-- The daemon process as far as the trap is concerned: the channels made so
far, the registrations of `signal.Notify` (channel number and signal), the
goroutines, the count of signals raised, and the calls of
`cli.reloadConfig()` started so far, oldest first. Channels and goroutines
are numbered by their position. -/
structure Process where
  chans : List Chan
  notify : List (Nat × Signal)
  tasks : List Goroutine
  sent : Nat
  invoked : List Invocation
deriving DecidableEq, Repr

/-- The daemon process at start: one goroutine running the daemon code, no
channel, no registration. -/
def Process.boot : Process :=
  { chans := [], notify := [], tasks := [Goroutine.main], sent := 0, invoked := [] }

/-- The method `setupConfigReloadTrap`, run by a goroutine of `p`. It makes
the channel `c` with room for one signal, registers `c` for `SIGHUP`, starts
a new goroutine on the range loop over `c`, and returns: the goroutines
already there, the caller among them, are left as they were, and
`cli.reloadConfig()` is not called. -/
def setupConfigReloadTrap (p : Process) : Process :=
  let c := p.chans.length
  let made : Process :=
    { p with chans := p.chans ++ [({ capacity := 1, buffer := [], accepted := [] } : Chan)] }
  let notified : Process := { made with notify := made.notify ++ [(c, Signal.SIGHUP)] }
  let started : Process :=
    { notified with tasks := notified.tasks ++ [Goroutine.reloadLoop c none] }
  started

/-- The send the runtime makes for a signal: it does not block, and the
signal is dropped when the channel is full. -/
def Chan.trySend (ch : Chan) (k : Nat) : Chan :=
  if ch.buffer.length < ch.capacity then
    { ch with buffer := ch.buffer ++ [k], accepted := ch.accepted ++ [k] }
  else ch

/-- Sends signal number `k` of kind `sig` on every channel registered for
`sig`; `i` is the number of the first channel of the list. -/
def sendAll (notify : List (Nat × Signal)) (sig : Signal) (k : Nat) :
    Nat → List Chan → List Chan
  | _, [] => []
  | i, ch :: rest =>
    (if (i, sig) ∈ notify then ch.trySend k else ch) :: sendAll notify sig k (i + 1) rest

/-- What can happen in the process: the runtime raises a signal, or the
goroutine with the given number takes its next step. -/
inductive Event where
  | signal (sig : Signal)
  | task (t : Nat)
deriving DecidableEq, Repr

/-- One step of the process, `none` when the event cannot happen.
* `signal sig`: the signal gets the next number and is sent, without
  blocking, on every channel registered for it.
* `task t` for a `main` goroutine: it goes on with its own work and leaves
  the trap alone.
* `task t` for a range loop that waits: it takes the oldest signal from its
  channel and calls `cli.reloadConfig()`; it cannot step while the channel is
  empty.
* `task t` for a range loop inside `cli.reloadConfig()`: the call returns and
  the goroutine waits again. -/
def Process.step (p : Process) : Event → Option Process
  | .signal sig =>
    some { p with sent := p.sent + 1, chans := sendAll p.notify sig p.sent 0 p.chans }
  | .task t =>
    match p.tasks[t]? with
    | none => none
    | some Goroutine.main => some p
    | some (Goroutine.reloadLoop c (some _)) =>
      some { p with tasks := p.tasks.set t (Goroutine.reloadLoop c none) }
    | some (Goroutine.reloadLoop c none) =>
      match p.chans[c]? with
      | none => none
      | some ch =>
        match ch.buffer with
        | [] => none
        | k :: rest =>
          some { p with
            chans := p.chans.set c { ch with buffer := rest }
            tasks := p.tasks.set t (Goroutine.reloadLoop c (some k))
            invoked := p.invoked ++ [{ signal := k, task := t }] }

/-- Runs a sequence of events, `none` when one of them cannot happen. -/
def Process.run (p : Process) : List Event → Option Process
  | [] => some p
  | e :: es =>
    match p.step e with
    | some q => q.run es
    | none => none

/-- The steps of goroutine `t` left alone on its range loop: it finishes the
running call, if any, and then handles the queued signals one after the
other. -/
def drainEvents (p : Process) (t : Nat) : List Event :=
  match p.tasks[t]? with
  | some (Goroutine.reloadLoop c running) =>
    (if running.isSome then [Event.task t] else []) ++
      ((match p.chans[c]? with
        | some ch => ch.buffer
        | none => []).map fun _ => [Event.task t, Event.task t]).flatten
  | _ => []

/-- The scenario of sending the reload signal `n` times in succession, each
time after the previous callback invocation has completed: the signal is
raised, goroutine `t` takes it and calls the callback, the callback returns. -/
def signalsInSuccession (t n : Nat) : List Event :=
  (List.replicate n [Event.signal Signal.SIGHUP, Event.task t, Event.task t]).flatten

/-- The state of the trap armed on the process at start, seen at a later
moment. -/
structure TrapState where
  sent : Nat
  queue : List Nat
  accepted : List Nat
  running : Option Nat
  invoked : List Nat
deriving DecidableEq, Repr

/-- The process in a given state of the trap: goroutine 0 is the caller of
`setupConfigReloadTrap`, goroutine 1 the range loop, channel 0 the channel
`c`. -/
def TrapState.process (s : TrapState) : Process :=
  { chans := [{ capacity := 1, buffer := s.queue, accepted := s.accepted }]
    notify := [(0, Signal.SIGHUP)]
    tasks := [Goroutine.main, Goroutine.reloadLoop 0 s.running]
    sent := s.sent
    invoked := s.invoked.map fun k => { signal := k, task := 1 } }

/-- What holds of the trap at every moment: the signals put on the channel are
the ones already handed to the callback followed by the ones still queued;
the channel never holds more than one signal; signals are numbered below
the count of signals raised, in increasing order. -/
def TrapState.Consistent (s : TrapState) : Prop :=
  s.invoked ++ s.queue = s.accepted ∧ s.queue.length ≤ 1 ∧
    (∀ k ∈ s.accepted, k < s.sent) ∧ s.accepted.Pairwise (fun a b => a < b)

/-- Consistency of a given state can be checked by computation. -/
instance TrapState.decidableConsistent (s : TrapState) : Decidable s.Consistent := by
  unfold TrapState.Consistent
  infer_instance

/-! # Properties -/

/-! ## getPlatformRemoteOptions -/

/-- The option slice, written out: OOM score, plugin registration, the
debug log level when `Debug` is set, and the connectivity option. -/
theorem getPlatformRemoteOptions_eq (p : Platform) (cfg : Config) :
    (getPlatformRemoteOptions p cfg).1 =
      [ RemoteOption.WithOOMScore cfg.OOMScoreAdjust,
        RemoteOption.WithPlugin "linux"
          { Shim := p.DefaultShimBinary
            Runtime := p.DefaultRuntimeBinary
            RuntimeRoot := p.filepathJoin cfg.Root "runc"
            ShimDebug := cfg.Debug
            ShimNoMountNS := !p.CheckKernelVersion 3 18 0 } ] ++
      (if cfg.Debug then [RemoteOption.WithLogLevel "debug"] else []) ++
      [ if cfg.ContainerdAddr ≠ "" then RemoteOption.WithRemoteAddr cfg.ContainerdAddr
        else RemoteOption.WithStartDaemon true ] := by
  unfold getPlatformRemoteOptions
  cases hd : cfg.Debug <;> by_cases ha : cfg.ContainerdAddr = "" <;>
    cases hk : p.CheckKernelVersion 3 18 0 <;> simp [ha]

/-- C1: the option sequence returned by getPlatformRemoteOptions holds exactly
one connectivity option. When ContainerdAddr is non-empty the WithRemoteAddr
options are exactly one WithRemoteAddr(ContainerdAddr) and there is no
WithStartDaemon option; when it is empty the WithStartDaemon options are
exactly one WithStartDaemon(true) and there is no WithRemoteAddr option. -/
theorem getPlatformRemoteOptions_one_connectivity (p : Platform) (cfg : Config) :
    ((getPlatformRemoteOptions p cfg).1.filter RemoteOption.isRemoteAddr,
      (getPlatformRemoteOptions p cfg).1.filter RemoteOption.isStartDaemon) =
        (if cfg.ContainerdAddr ≠ "" then
          ([RemoteOption.WithRemoteAddr cfg.ContainerdAddr], [])
        else ([], [RemoteOption.WithStartDaemon true])) ∧
    ((getPlatformRemoteOptions p cfg).1.filter RemoteOption.isConnectivity).length = 1 := by
  rw [getPlatformRemoteOptions_eq]
  cases hd : cfg.Debug <;> by_cases ha : cfg.ContainerdAddr = "" <;>
    simp [ha, List.filter, RemoteOption.isRemoteAddr, RemoteOption.isStartDaemon,
      RemoteOption.isConnectivity]

/-- C2: the plugin-registration option produced by getPlatformRemoteOptions
carries ShimNoMountNS equal to the negation of kernel.CheckKernelVersion(3,
18, 0); with the probe answering for an observed kernel version, the flag is
true when that version is strictly below 3.18.0 and false when it is 3.18.0
or above. -/
theorem getPlatformRemoteOptions_ShimNoMountNS (p : Platform) (cfg : Config)
    (observed : VersionInfo) :
    (pluginConfigs (getPlatformRemoteOptions p cfg).1).map (fun nc => nc.2.ShimNoMountNS) =
      [!p.CheckKernelVersion 3 18 0] ∧
    (pluginConfigs (getPlatformRemoteOptions
        { p with CheckKernelVersion := CheckKernelVersion observed } cfg).1).map
        (fun nc => nc.2.ShimNoMountNS) =
      [decide (observed.Kernel < 3 ∨ (observed.Kernel = 3 ∧
        (observed.Major < 18 ∨ (observed.Major = 18 ∧ observed.Minor < 0))))] := by
  constructor
  · rw [getPlatformRemoteOptions_eq]
    cases hd : cfg.Debug <;> by_cases ha : cfg.ContainerdAddr = "" <;>
      simp [ha, pluginConfigs]
  · rw [getPlatformRemoteOptions_eq]
    have hk : (!CheckKernelVersion observed 3 18 0) =
        decide (observed.Kernel < 3 ∨ (observed.Kernel = 3 ∧
          (observed.Major < 18 ∨ (observed.Major = 18 ∧ observed.Minor < 0)))) := by
      unfold CheckKernelVersion CompareKernelVersion
      simp only []
      split_ifs <;> simp <;> omega
    cases hd : cfg.Debug <;> by_cases ha : cfg.ContainerdAddr = "" <;>
      simp [ha, pluginConfigs, hk]

/-- C3: getPlatformRemoteOptions returns no error and an ordered sequence: the
OOM-score option first, the linux plugin registration second (RuntimeRoot is
Root joined with runc, ShimDebug is Debug), the connectivity option last, and
WithLogLevel(debug) at index 2, between the two, if and only if Debug is set.
The length is 4 with Debug and 3 without, and every OOM-score or plugin option
stands before every connectivity option. -/
theorem getPlatformRemoteOptions_order (p : Platform) (cfg : Config) :
    (getPlatformRemoteOptions p cfg).2 = none ∧
    (getPlatformRemoteOptions p cfg).1[0]? =
      some (RemoteOption.WithOOMScore cfg.OOMScoreAdjust) ∧
    (∃ conf, (getPlatformRemoteOptions p cfg).1[1]? = some (RemoteOption.WithPlugin "linux" conf) ∧
      conf.RuntimeRoot = p.filepathJoin cfg.Root "runc" ∧ conf.ShimDebug = cfg.Debug) ∧
    (getPlatformRemoteOptions p cfg).1.getLast? =
      some (if cfg.ContainerdAddr ≠ "" then RemoteOption.WithRemoteAddr cfg.ContainerdAddr
        else RemoteOption.WithStartDaemon true) ∧
    (getPlatformRemoteOptions p cfg).1.length = (if cfg.Debug then 4 else 3) ∧
    (∀ lvl, RemoteOption.WithLogLevel lvl ∈ (getPlatformRemoteOptions p cfg).1 ↔
      (cfg.Debug = true ∧ lvl = "debug")) ∧
    ((getPlatformRemoteOptions p cfg).1[2]? = some (RemoteOption.WithLogLevel "debug") ↔
      cfg.Debug = true) ∧
    (∀ (i j : Nat) (a b : RemoteOption), (getPlatformRemoteOptions p cfg).1[i]? = some a →
      (getPlatformRemoteOptions p cfg).1[j]? = some b →
      a.isIdentity = true → b.isConnectivity = true → i < j) := by
  refine ⟨rfl, ?_⟩
  rw [getPlatformRemoteOptions_eq]
  cases hd : cfg.Debug <;> by_cases ha : cfg.ContainerdAddr = "" <;>
    simp only [ha, ne_eq, not_true_eq_false, not_false_eq_true, if_true, if_false,
      Bool.false_eq_true, List.append_nil, List.cons_append, List.nil_append] <;>
    refine ⟨by simp, ⟨_, rfl, rfl, rfl⟩, by simp, by simp, by simp, by simp, ?_⟩ <;>
    intro i j a b hi hj hia hjb <;>
    rcases i with _ | _ | _ | _ | i <;> rcases j with _ | _ | _ | _ | j <;>
    first
    | omega
    | (simp at hi hj <;> (try subst hi) <;> (try subst hj) <;>
        simp [RemoteOption.isIdentity, RemoteOption.isConnectivity,
          RemoteOption.isRemoteAddr, RemoteOption.isStartDaemon] at hia hjb)

/-! ## wrapListeners -/

/-- The loop of the `fd` case, started at index `pre.length` with the
listeners before that index already wrapped, wraps all the remaining ones. -/
theorem foldlM_wrapAt (post pre : List Listener) :
    (List.range' pre.length post.length).foldlM wrapAt (pre ++ post) =
      Except.ok (pre ++ post.map Listener.MalformedHostHeaderOverride) := by
  induction post generalizing pre with
  | nil => simp [List.range', pure, Except.pure]
  | cons x xs ih =>
    have hstep : wrapAt (pre ++ x :: xs) pre.length =
        Except.ok ((pre ++ [Listener.MalformedHostHeaderOverride x]) ++ xs) := by
      have hx : (pre ++ x :: xs)[pre.length]? = some x := by
        rw [List.getElem?_append_right (Nat.le_refl _)]
        simp
      simp [wrapAt, hx]
    have := ih (pre ++ [Listener.MalformedHostHeaderOverride x])
    simp only [List.length_append, List.length_singleton] at this
    simp only [List.length_cons, List.range', List.foldlM_cons, hstep, bind, Except.bind]
    simpa using this

/-- The `fd` case wraps every listener. -/
theorem wrapListeners_fd (ls : List Listener) :
    wrapListeners "fd" ls = Except.ok (ls.map Listener.MalformedHostHeaderOverride) := by
  have := foldlM_wrapAt ls []
  simp only [List.length_nil, List.nil_append] at this
  simp [wrapListeners, List.range_eq_range', this]

/-- The `unix` case wraps the first listener and panics on an empty slice. -/
theorem wrapListeners_unix (ls : List Listener) :
    wrapListeners "unix" ls =
      match ls with
      | [] => Except.error (Panic.indexOutOfRange 0 0)
      | l :: rest => Except.ok (Listener.MalformedHostHeaderOverride l :: rest) := by
  cases ls <;> simp [wrapListeners, wrapAt]

/-- Every other transport kind returns the slice as it is. -/
theorem wrapListeners_other (proto : String) (ls : List Listener)
    (hu : proto ≠ "unix") (hf : proto ≠ "fd") : wrapListeners proto ls = Except.ok ls := by
  simp [wrapListeners, hu, hf]

/-- C7: for a non-empty listener sequence wrapListeners returns a sequence of
the same length; for unix index 0 is a MalformedHostHeaderOverride around
ls[0] and every other index holds the original listener; for fd every index i
is a MalformedHostHeaderOverride around ls[i]; for every other transport kind
the result equals the input. -/
theorem wrapListeners_nonempty (proto : String) (ls : List Listener) (h : ls ≠ []) :
    ∃ out, wrapListeners proto ls = Except.ok out ∧ out.length = ls.length ∧
      (proto = "unix" → ∀ i : Nat, out[i]? =
        if i = 0 then ls[0]?.map Listener.MalformedHostHeaderOverride else ls[i]?) ∧
      (proto = "fd" → ∀ i : Nat, out[i]? = ls[i]?.map Listener.MalformedHostHeaderOverride) ∧
      (proto ≠ "unix" → proto ≠ "fd" → out = ls) := by
  by_cases hu : proto = "unix"
  · subst hu
    cases ls with
    | nil => exact absurd rfl h
    | cons l rest =>
      refine ⟨_, by rw [wrapListeners_unix], by simp, ?_, fun hne => absurd hne (by decide),
        by simp⟩
      intro _ i
      cases i <;> simp
  · by_cases hf : proto = "fd"
    · subst hf
      exact ⟨_, wrapListeners_fd ls, by simp, fun hne => absurd hne (by decide),
        by intro _ i; simp, by simp⟩
    · exact ⟨_, wrapListeners_other proto ls hu hf, rfl, by simp [hu], by simp [hf], by simp⟩

/-- The three-listener runs: only index 0 is wrapped for unix. -/
theorem wrapListeners_nonempty_witness :
    [Listener.raw 0, Listener.raw 1, Listener.raw 2] ≠ [] ∧
    ∃ out, wrapListeners "unix" [Listener.raw 0, Listener.raw 1, Listener.raw 2] = Except.ok out ∧
      out.length = [Listener.raw 0, Listener.raw 1, Listener.raw 2].length ∧
      ("unix" = "unix" → ∀ i : Nat, out[i]? =
        if i = 0 then [Listener.raw 0, Listener.raw 1, Listener.raw 2][0]?.map
          Listener.MalformedHostHeaderOverride
        else [Listener.raw 0, Listener.raw 1, Listener.raw 2][i]?) ∧
      ("unix" = "fd" → ∀ i : Nat, out[i]? =
        [Listener.raw 0, Listener.raw 1, Listener.raw 2][i]?.map
          Listener.MalformedHostHeaderOverride) ∧
      ("unix" ≠ "unix" → "unix" ≠ "fd" → out = [Listener.raw 0, Listener.raw 1, Listener.raw 2]) :=
  ⟨by decide, wrapListeners_nonempty "unix" [Listener.raw 0, Listener.raw 1, Listener.raw 2]
    (by decide)⟩

/-- C8, as stated, fails: for unix and the empty sequence the index 0 is out
of range and wrapListeners panics instead of returning a sequence. -/
theorem wrapListeners_unix_empty_panics :
    wrapListeners "unix" [] = Except.error (Panic.indexOutOfRange 0 0) ∧
    ¬ ∀ (proto : String) (ls : List Listener),
      ∃ out, wrapListeners proto ls = Except.ok out ∧ out.length = ls.length := by
  refine ⟨wrapListeners_unix [], fun hall => ?_⟩
  obtain ⟨out, hout, _⟩ := hall "unix" []
  rw [wrapListeners_unix] at hout
  cases hout

/-- C8, amended: wrapListeners completes without failing and returns a
sequence of the same length as its input for every transport kind and every
listener sequence, the empty one included, as long as the sequence is not
empty when the kind is unix. -/
theorem wrapListeners_total (proto : String) (ls : List Listener)
    (h : proto ≠ "unix" ∨ ls ≠ []) :
    ∃ out, wrapListeners proto ls = Except.ok out ∧ out.length = ls.length := by
  by_cases hu : proto = "unix"
  · subst hu
    rw [wrapListeners_unix]
    cases ls with
    | nil => exact absurd rfl (h.resolve_left (fun hne => hne rfl))
    | cons l rest => exact ⟨_, rfl, by simp⟩
  · by_cases hf : proto = "fd"
    · subst hf
      exact ⟨_, wrapListeners_fd ls, by simp⟩
    · exact ⟨_, wrapListeners_other proto ls hu hf, rfl⟩

/-- The amended statement at the fd kind with the empty sequence. -/
theorem wrapListeners_total_witness :
    ("fd" ≠ "unix" ∨ ([] : List Listener) ≠ []) ∧
      ∃ out, wrapListeners "fd" [] = Except.ok out ∧ out.length = ([] : List Listener).length :=
  ⟨Or.inl (by decide), wrapListeners_total "fd" [] (Or.inl (by decide))⟩

/-! ## setDefaultUmask -/

/-- C9: with the process umask as explicit state, setDefaultUmask leaves the
process mask equal to octal 022 for every initial mask; it returns an error
if and only if the mask observed by its second Umask call differs from 022,
and the error carries 022 and the observed mask; and when nothing changes the
mask between the two calls it returns no error. -/
theorem setDefaultUmask_spec (between : Nat → Nat) (initial : Nat) :
    (setDefaultUmask between initial).2 = 0o22 ∧
    ((setDefaultUmask between initial).1 ≠ none ↔ readBackUmask between initial ≠ 0o22) ∧
    (setDefaultUmask between initial).1 =
      (if readBackUmask between initial ≠ 0o22 then
        some (UmaskError.mismatch 0o22 (readBackUmask between initial)) else none) ∧
    readBackUmask between initial = between 0o22 ∧
    setDefaultUmask id initial = (none, 0o22) := by
  unfold setDefaultUmask readBackUmask Umask
  by_cases h : between 0o22 = 0o22 <;> simp [h]

/-! ## allocateDaemonPort -/

/-- A rejected request leaves the registry as it was; the triple asked for was
already reserved. -/
theorem RequestPort_rejected (pa : PortAllocator) (ip : IP) (proto : String) (port : Int)
    (cause : String) (h : (pa.RequestPort ip proto port).1.2 = some cause) :
    (pa.RequestPort ip proto port).2 = pa ∧ (ip, proto, port) ∈ pa.reserved := by
  unfold PortAllocator.RequestPort at h ⊢
  by_cases hm : (ip, proto, port) ∈ pa.reserved
  · simp [hm]
  · simp [hm] at h

/-- A granted request adds the triple asked for to the reservations. -/
theorem RequestPort_granted (pa : PortAllocator) (ip : IP) (proto : String) (port : Int)
    (h : (pa.RequestPort ip proto port).1.2 = none) :
    (pa.RequestPort ip proto port).2.reserved = pa.reserved ++ [(ip, proto, port)] ∧
      (ip, proto, port) ∉ pa.reserved := by
  unfold PortAllocator.RequestPort at h ⊢
  by_cases hm : (ip, proto, port) ∈ pa.reserved
  · simp [hm] at h
  · simp [hm]

/-- After a run of granted requests the registry holds the earlier
reservations followed by the new ones. -/
theorem grantAll_reserved (proto : String) (port : Int) (ips : List IP)
    (pa r : PortAllocator) (h : pa.grantAll proto port ips = some r) :
    r.reserved = pa.reserved ++ ips.map (fun ip => (ip, proto, port)) := by
  induction ips generalizing pa with
  | nil =>
    simp only [PortAllocator.grantAll, Option.some.injEq] at h
    simp [h]
  | cons ip ips ih =>
    unfold PortAllocator.grantAll at h
    cases hg : (pa.RequestPort ip proto port).1.2 with
    | some c => simp [hg] at h
    | none =>
      simp only [hg] at h
      rw [ih _ h, (RequestPort_granted pa ip proto port hg).1]
      simp

/-- The loop when it runs to its end: every IP was asked for, in order, every
request was granted, and no lookup was made. -/
theorem requestPorts_none (n : Int) (ips : List IP) (w : World)
    (h : (requestPorts n ips w).1 = none) :
    (requestPorts n ips w).2.requests =
        w.requests ++ ips.map (fun ip => (⟨ip, "tcp", n, true⟩ : PortRequest)) ∧
      (requestPorts n ips w).2.lookups = w.lookups ∧
      w.registry.grantAll "tcp" n ips = some (requestPorts n ips w).2.registry := by
  induction ips generalizing w with
  | nil => simp [requestPorts, PortAllocator.grantAll]
  | cons ip ips ih =>
    unfold requestPorts at h ⊢
    cases hg : (w.RequestPort ip "tcp" n).1.2 with
    | some c => simp [hg] at h
    | none =>
      simp only [hg] at h ⊢
      obtain ⟨h1, h2, h3⟩ := ih _ h
      have hg2 : (w.registry.RequestPort ip "tcp" n).1.2 = none := hg
      refine ⟨?_, ?_, ?_⟩
      · rw [h1]
        simp [World.RequestPort, hg2]
      · rw [h2]
        simp [World.RequestPort]
      · rw [PortAllocator.grantAll]
        simp only [hg2]
        exact h3

/-- The loop when the registry grants a first run of IPs and rejects the next
one: it stops there with the allocation error. -/
theorem requestPorts_rejected (n : Int) (pre : List IP) (ipk : IP) (post : List IP)
    (w : World) (r1 : PortAllocator) (cause : String)
    (hpre : w.registry.grantAll "tcp" n pre = some r1)
    (hrej : (r1.RequestPort ipk "tcp" n).1.2 = some cause) :
    requestPorts n (pre ++ ipk :: post) w =
      (some (AllocError.allocate n cause),
        { registry := r1
          requests := w.requests ++ pre.map (fun ip => (⟨ip, "tcp", n, true⟩ : PortRequest)) ++
            [⟨ipk, "tcp", n, false⟩]
          lookups := w.lookups }) := by
  induction pre generalizing w with
  | nil =>
    simp only [PortAllocator.grantAll, Option.some.injEq] at hpre
    subst hpre
    have hsame := (RequestPort_rejected _ _ _ _ _ hrej).1
    simp [requestPorts, World.RequestPort, hrej, hsame]
  | cons ip pre ih =>
    unfold PortAllocator.grantAll at hpre
    cases hg : (w.registry.RequestPort ip "tcp" n).1.2 with
    | some c => simp [hg] at hpre
    | none =>
      simp only [hg] at hpre
      have hg2 : (w.RequestPort ip "tcp" n).1.2 = none := hg
      have := ih (w.RequestPort ip "tcp" n).2 hpre
      rw [List.cons_append, requestPorts]
      simp only [hg2]
      rw [this]
      simp [World.RequestPort, hg]

/-- The function after a successful split and port parse: the loop over the
resolved IPs, run on the state left by the lookup when there was one. -/
theorem allocateDaemonPort_resolved (lib : NetLib) (w : World) (addr host port : String)
    (n : Int) (hsplit : lib.SplitHostPort addr = Except.ok (host, port))
    (hatoi : lib.Atoi port = Except.ok n)
    (hlook : lib.ParseIP host = none → (lib.LookupIP host).2 = none) :
    allocateDaemonPort lib w addr =
      requestPorts n (resolvedIPs lib host)
        (match lib.ParseIP host with
          | some _ => w
          | none => { w with lookups := w.lookups ++ [host] }) := by
  unfold allocateDaemonPort resolvedIPs
  simp only [hsplit, hatoi]
  cases hp : lib.ParseIP host with
  | some ip => rfl
  | none => simp [World.LookupIP, hlook hp]

/-- C4: when allocateDaemonPort returns success for an address host:port with
a numeric port, the registry was asked for (ip, tcp, port) for every IP the
host resolves to, in order, and nothing else; every one of these requests
was granted; the registry afterwards holds a TCP reservation of the port
for each resolved IP; and a literal IP is used directly, without a DNS
lookup. For 127.0.0.1:2375 on an empty registry the call succeeds and leaves
the reservation (127.0.0.1, tcp, 2375). -/
theorem allocateDaemonPort_success :
    (∀ (lib : NetLib) (w : World) (addr host port : String) (n : Int),
      lib.SplitHostPort addr = Except.ok (host, port) → lib.Atoi port = Except.ok n →
      (allocateDaemonPort lib w addr).1 = none →
        (allocateDaemonPort lib w addr).2.requests =
          w.requests ++
            (resolvedIPs lib host).map (fun ip => (⟨ip, "tcp", n, true⟩ : PortRequest)) ∧
        w.registry.grantAll "tcp" n (resolvedIPs lib host) =
          some (allocateDaemonPort lib w addr).2.registry ∧
        (∀ ip ∈ resolvedIPs lib host,
          (ip, "tcp", n) ∈ (allocateDaemonPort lib w addr).2.registry.reserved) ∧
        (∀ ip, lib.ParseIP host = some ip →
          resolvedIPs lib host = [ip] ∧ (allocateDaemonPort lib w addr).2.lookups = w.lookups)) ∧
    (∀ resolver : String → List IP × Option String,
      allocateDaemonPort (sampleNet resolver) World.empty "127.0.0.1:2375" =
        (none,
          { registry := ⟨[(IPv4 127 0 0 1, "tcp", 2375)]⟩
            requests := [⟨IPv4 127 0 0 1, "tcp", 2375, true⟩]
            lookups := [] })) := by
  refine ⟨?_, fun _ => rfl⟩
  intro lib w addr host port n hsplit hatoi hok
  have hlook : lib.ParseIP host = none → (lib.LookupIP host).2 = none := by
    intro hp
    unfold allocateDaemonPort at hok
    simp only [hsplit, hatoi, hp] at hok
    cases hl : (lib.LookupIP host).2 with
    | none => rfl
    | some e => simp [World.LookupIP, hl] at hok
  rw [allocateDaemonPort_resolved lib w addr host port n hsplit hatoi hlook] at hok ⊢
  obtain ⟨h1, h2, h3⟩ := requestPorts_none n _ _ hok
  have hres := grantAll_reserved "tcp" n _ _ _ h3
  refine ⟨?_, ?_, ?_, ?_⟩
  · rw [h1]
    cases lib.ParseIP host <;> rfl
  · rw [← h3]
    cases lib.ParseIP host <;> rfl
  · intro ip hip
    rw [hres]
    exact List.mem_append_right _ (List.mem_map.mpr ⟨ip, hip, rfl⟩)
  · intro ip hp
    refine ⟨by simp [resolvedIPs, hp], ?_⟩
    rw [h2]
    simp [hp]

/-- The success statement at the address localhost:2375, whose host resolves to
two IPs, on an empty registry. -/
theorem allocateDaemonPort_success_witness :
    (allocateDaemonPort (sampleNet localResolver) World.empty "localhost:2375").2.requests =
        World.empty.requests ++
          (resolvedIPs (sampleNet localResolver) "localhost").map
            (fun ip => (⟨ip, "tcp", 2375, true⟩ : PortRequest)) ∧
      World.empty.registry.grantAll "tcp" 2375 (resolvedIPs (sampleNet localResolver) "localhost") =
        some (allocateDaemonPort (sampleNet localResolver) World.empty "localhost:2375").2.registry ∧
      (∀ ip ∈ resolvedIPs (sampleNet localResolver) "localhost",
        (ip, "tcp", (2375 : Int)) ∈
          (allocateDaemonPort (sampleNet localResolver) World.empty
            "localhost:2375").2.registry.reserved) ∧
      (∀ ip, (sampleNet localResolver).ParseIP "localhost" = some ip →
        resolvedIPs (sampleNet localResolver) "localhost" = [ip] ∧
          (allocateDaemonPort (sampleNet localResolver) World.empty "localhost:2375").2.lookups =
            World.empty.lookups) :=
  allocateDaemonPort_success.1 (sampleNet localResolver) World.empty "localhost:2375"
    "localhost" "2375" 2375 rfl rfl rfl

/-- C5: when the host of the address resolves to ip_1..ip_n and the registry
grants the TCP request of the port for ip_1..ip_(k-1) and rejects it for
ip_k, allocateDaemonPort fails with the allocation error that carries the port
number and the cause given by the registry; the requests made are those for
ip_1..ip_k and no other, so none for ip_(k+1)..ip_n; and the registry is left
with the reservations made for ip_1..ip_(k-1), without rollback. A call for
127.0.0.1:2375 when that reservation is already held, as after a first call,
fails with the error carrying port 2375. -/
theorem allocateDaemonPort_conflict :
    (∀ (lib : NetLib) (w : World) (addr host port : String) (n : Int)
        (pre : List IP) (ipk : IP) (post : List IP) (r1 : PortAllocator) (cause : String),
      lib.SplitHostPort addr = Except.ok (host, port) → lib.Atoi port = Except.ok n →
      (lib.ParseIP host = none → (lib.LookupIP host).2 = none) →
      resolvedIPs lib host = pre ++ ipk :: post →
      w.registry.grantAll "tcp" n pre = some r1 →
      (r1.RequestPort ipk "tcp" n).1.2 = some cause →
        (allocateDaemonPort lib w addr).1 = some (AllocError.allocate n cause) ∧
        (allocateDaemonPort lib w addr).2.requests =
          w.requests ++ pre.map (fun ip => (⟨ip, "tcp", n, true⟩ : PortRequest)) ++
            [⟨ipk, "tcp", n, false⟩] ∧
        (allocateDaemonPort lib w addr).2.registry.reserved =
          w.registry.reserved ++ pre.map (fun ip => (ip, "tcp", n)) ∧
        (∀ ip ∈ pre, (ip, "tcp", n) ∈ (allocateDaemonPort lib w addr).2.registry.reserved)) ∧
    (∀ (resolver : String → List IP × Option String) (w : World),
      (IPv4 127 0 0 1, "tcp", 2375) ∈ w.registry.reserved →
        (allocateDaemonPort (sampleNet resolver) w "127.0.0.1:2375").1 =
          some (AllocError.allocate 2375 "port is already allocated")) ∧
    (allocateDaemonPort (sampleNet localResolver)
        (allocateDaemonPort (sampleNet localResolver) World.empty "127.0.0.1:2375").2
        "127.0.0.1:2375").1 = some (AllocError.allocate 2375 "port is already allocated") ∧
    (AllocError.allocate 2375 "port is already allocated").Error =
      "failed to allocate daemon listening port 2375 (err: port is already allocated)" := by
  have general : ∀ (lib : NetLib) (w : World) (addr host port : String) (n : Int)
      (pre : List IP) (ipk : IP) (post : List IP) (r1 : PortAllocator) (cause : String),
      lib.SplitHostPort addr = Except.ok (host, port) → lib.Atoi port = Except.ok n →
      (lib.ParseIP host = none → (lib.LookupIP host).2 = none) →
      resolvedIPs lib host = pre ++ ipk :: post →
      w.registry.grantAll "tcp" n pre = some r1 →
      (r1.RequestPort ipk "tcp" n).1.2 = some cause →
        (allocateDaemonPort lib w addr).1 = some (AllocError.allocate n cause) ∧
        (allocateDaemonPort lib w addr).2.requests =
          w.requests ++ pre.map (fun ip => (⟨ip, "tcp", n, true⟩ : PortRequest)) ++
            [⟨ipk, "tcp", n, false⟩] ∧
        (allocateDaemonPort lib w addr).2.registry.reserved =
          w.registry.reserved ++ pre.map (fun ip => (ip, "tcp", n)) ∧
        (∀ ip ∈ pre, (ip, "tcp", n) ∈ (allocateDaemonPort lib w addr).2.registry.reserved) := by
    intro lib w addr host port n pre ipk post r1 cause hsplit hatoi hlook hres hpre hrej
    rw [allocateDaemonPort_resolved lib w addr host port n hsplit hatoi hlook, hres]
    have hreg : (match lib.ParseIP host with
        | some _ => w
        | none => { w with lookups := w.lookups ++ [host] }).registry = w.registry := by
      cases lib.ParseIP host <;> rfl
    have hreq : (match lib.ParseIP host with
        | some _ => w
        | none => { w with lookups := w.lookups ++ [host] }).requests = w.requests := by
      cases lib.ParseIP host <;> rfl
    rw [requestPorts_rejected n pre ipk post _ r1 cause (by rw [hreg]; exact hpre) hrej]
    have hr1 := grantAll_reserved "tcp" n pre _ _ hpre
    refine ⟨rfl, by simp [hreq], hr1, ?_⟩
    intro ip hip
    show (ip, "tcp", n) ∈ r1.reserved
    rw [hr1]
    exact List.mem_append_right _ (List.mem_map.mpr ⟨ip, hip, rfl⟩)
  refine ⟨general, ?_, rfl, rfl⟩
  intro resolver w hmem
  exact (general (sampleNet resolver) w "127.0.0.1:2375" "127.0.0.1" "2375" 2375 []
    (IPv4 127 0 0 1) [] w.registry "port is already allocated" rfl rfl
    (fun hp => by simp [sampleNet] at hp; exact absurd hp (by decide)) rfl rfl
    (by simp [PortAllocator.RequestPort, hmem])).1

/-- The conflict statement at localhost:2375, whose host resolves to 127.0.0.1
and ::1, when the port is free for the first and taken for the second. -/
theorem allocateDaemonPort_conflict_witness :
    (allocateDaemonPort (sampleNet localResolver) ⟨⟨[(IPv6loopback, "tcp", 2375)]⟩, [], []⟩
        "localhost:2375").1 = some (AllocError.allocate 2375 "port is already allocated") ∧
      (allocateDaemonPort (sampleNet localResolver) ⟨⟨[(IPv6loopback, "tcp", 2375)]⟩, [], []⟩
        "localhost:2375").2.requests =
          ([] : List PortRequest) ++
            [IPv4 127 0 0 1].map (fun ip => (⟨ip, "tcp", 2375, true⟩ : PortRequest)) ++
            [⟨IPv6loopback, "tcp", 2375, false⟩] ∧
      (allocateDaemonPort (sampleNet localResolver) ⟨⟨[(IPv6loopback, "tcp", 2375)]⟩, [], []⟩
        "localhost:2375").2.registry.reserved =
          [(IPv6loopback, "tcp", (2375 : Int))] ++
            [IPv4 127 0 0 1].map (fun ip => (ip, "tcp", (2375 : Int))) ∧
      (∀ ip ∈ [IPv4 127 0 0 1], (ip, "tcp", (2375 : Int)) ∈
        (allocateDaemonPort (sampleNet localResolver) ⟨⟨[(IPv6loopback, "tcp", 2375)]⟩, [], []⟩
          "localhost:2375").2.registry.reserved) :=
  allocateDaemonPort_conflict.1 (sampleNet localResolver)
    ⟨⟨[(IPv6loopback, "tcp", 2375)]⟩, [], []⟩ "localhost:2375" "localhost" "2375" 2375
    [IPv4 127 0 0 1] IPv6loopback []
    ⟨[(IPv6loopback, "tcp", 2375), (IPv4 127 0 0 1, "tcp", 2375)]⟩
    "port is already allocated" rfl rfl (fun _ => rfl) rfl rfl rfl

/-- C6, as stated, fails: when the lookup of a host name returns no address
and no error, allocateDaemonPort does not fail with a host-resolution error;
it makes no request and returns success. -/
theorem allocateDaemonPort_empty_lookup_succeeds :
    (sampleNet silentResolver).SplitHostPort "nonexistent.invalid:80" =
        Except.ok ("nonexistent.invalid", "80") ∧
      (sampleNet silentResolver).Atoi "80" = Except.ok 80 ∧
      (sampleNet silentResolver).ParseIP "nonexistent.invalid" = none ∧
      ((sampleNet silentResolver).LookupIP "nonexistent.invalid").1 = [] ∧
      allocateDaemonPort (sampleNet silentResolver) World.empty "nonexistent.invalid:80" =
        (none, { registry := ⟨[]⟩, requests := [], lookups := ["nonexistent.invalid"] }) ∧
      ¬ ∀ (lib : NetLib) (w : World) (addr host port : String) (n : Int),
        lib.SplitHostPort addr = Except.ok (host, port) → lib.Atoi port = Except.ok n →
        lib.ParseIP host = none →
        ((lib.LookupIP host).2 ≠ none ∨ (lib.LookupIP host).1 = []) →
          (allocateDaemonPort lib w addr).1 = some (AllocError.lookup host) ∧
            (allocateDaemonPort lib w addr).2.requests = w.requests := by
  refine ⟨rfl, rfl, rfl, rfl, rfl, fun hall => ?_⟩
  have := (hall (sampleNet silentResolver) World.empty "nonexistent.invalid:80"
    "nonexistent.invalid" "80" 80 rfl rfl rfl (Or.inr rfl)).1
  have hnone : (allocateDaemonPort (sampleNet silentResolver) World.empty
    "nonexistent.invalid:80").1 = none := rfl
  rw [hnone] at this
  cases this

/-- C6, amended: for an address host:port with a numeric port whose host is
not a literal IP, if the forward DNS lookup returns an error then
allocateDaemonPort fails with the host-resolution error and makes no request
to the registry; if the lookup returns no address and no error then it makes
no request to the registry either, and returns success. -/
theorem allocateDaemonPort_lookup (lib : NetLib) (w : World) (addr host port : String)
    (n : Int) (hsplit : lib.SplitHostPort addr = Except.ok (host, port))
    (hatoi : lib.Atoi port = Except.ok n) (hparse : lib.ParseIP host = none) :
    ((lib.LookupIP host).2 ≠ none →
      (allocateDaemonPort lib w addr).1 = some (AllocError.lookup host) ∧
        (allocateDaemonPort lib w addr).2.requests = w.requests ∧
        (allocateDaemonPort lib w addr).2.registry = w.registry) ∧
    (lib.LookupIP host = ([], none) →
      (allocateDaemonPort lib w addr).1 = none ∧
        (allocateDaemonPort lib w addr).2.requests = w.requests ∧
        (allocateDaemonPort lib w addr).2.registry = w.registry) := by
  unfold allocateDaemonPort
  simp only [hsplit, hatoi, hparse]
  constructor
  · intro herr
    cases hl : (lib.LookupIP host).2 with
    | none => exact absurd hl herr
    | some e => simp [World.LookupIP, hl]
  · intro hempty
    simp [World.LookupIP, hempty, requestPorts]

/-- The amended statement at nonexistent.invalid:80, which the resolver cannot
resolve: the call fails with the host-resolution error without any request. -/
theorem allocateDaemonPort_lookup_witness :
    ((sampleNet localResolver).LookupIP "nonexistent.invalid").2 ≠ none ∧
      (allocateDaemonPort (sampleNet localResolver) World.empty "nonexistent.invalid:80").1 =
        some (AllocError.lookup "nonexistent.invalid") ∧
      (allocateDaemonPort (sampleNet localResolver) World.empty
        "nonexistent.invalid:80").2.requests = World.empty.requests ∧
      (allocateDaemonPort (sampleNet localResolver) World.empty
        "nonexistent.invalid:80").2.registry = World.empty.registry :=
  ⟨by decide,
    (allocateDaemonPort_lookup (sampleNet localResolver) World.empty "nonexistent.invalid:80"
      "nonexistent.invalid" "80" 80 rfl rfl rfl).1 (by decide)⟩


/-! ## setupConfigReloadTrap -/

/-- The trap armed on the process at start is the trap state with nothing
sent, queued or invoked. -/
theorem setupConfigReloadTrap_boot :
    setupConfigReloadTrap Process.boot = (⟨0, [], [], none, []⟩ : TrapState).process := rfl

/-- A reload signal is put on the channel when there is room, and dropped
otherwise. -/
theorem TrapState.step_SIGHUP (s : TrapState) :
    s.process.step (Event.signal Signal.SIGHUP) =
      some (if s.queue.length < 1 then
          ({ s with sent := s.sent + 1, queue := s.queue ++ [s.sent],
                    accepted := s.accepted ++ [s.sent] } : TrapState)
        else { s with sent := s.sent + 1 }).process := by
  by_cases hq : s.queue.length < 1 <;>
    simp [Process.step, TrapState.process, sendAll, Chan.trySend, hq]

/-- A signal other than the reload signal does not reach the channel. -/
theorem TrapState.step_unsubscribed (s : TrapState) (sig : Signal) (hsig : sig ≠ Signal.SIGHUP) :
    s.process.step (Event.signal sig) =
      some ({ s with sent := s.sent + 1 } : TrapState).process := by
  simp [Process.step, TrapState.process, sendAll, hsig]

/-- The caller goes on without touching the trap. -/
theorem TrapState.step_caller (s : TrapState) :
    s.process.step (Event.task 0) = some s.process := by
  simp [Process.step, TrapState.process]

/-- The steps of the range loop: it takes the oldest queued signal when it
waits, and goes back to waiting when the callback returns. -/
theorem TrapState.step_loop (s : TrapState) :
    s.process.step (Event.task 1) =
      match s.running, s.queue with
      | some _, _ => some ({ s with running := none } : TrapState).process
      | none, [] => none
      | none, k :: rest =>
        some ({ s with queue := rest, running := some k,
                       invoked := s.invoked ++ [k] } : TrapState).process := by
  obtain ⟨sent, queue, accepted, running, invoked⟩ := s
  cases running with
  | some k => simp [Process.step, TrapState.process]
  | none =>
    cases queue with
    | nil => simp [Process.step, TrapState.process]
    | cons k rest => simp [Process.step, TrapState.process]

/-- There is no goroutine beyond the caller and the range loop. -/
theorem TrapState.step_absent (s : TrapState) (t : Nat) :
    s.process.step (Event.task (t + 2)) = none := by
  simp [Process.step, TrapState.process]

/-- Every step of the process leads from a consistent trap state to a
consistent trap state. -/
theorem TrapState.step_consistent (s : TrapState) (e : Event) (q : Process)
    (hs : s.Consistent) (hstep : s.process.step e = some q) :
    ∃ t : TrapState, q = t.process ∧ t.Consistent := by
  obtain ⟨h1, h2, h3, h4⟩ := hs
  cases e with
  | signal sig =>
    by_cases hsig : sig = Signal.SIGHUP
    · subst hsig
      rw [TrapState.step_SIGHUP, Option.some.injEq] at hstep
      by_cases hq : s.queue.length < 1
      · rw [if_pos hq] at hstep
        refine ⟨_, hstep.symm, ?_, ?_, ?_, ?_⟩
        · show s.invoked ++ (s.queue ++ [s.sent]) = s.accepted ++ [s.sent]
          rw [← h1, List.append_assoc]
        · show (s.queue ++ [s.sent]).length ≤ 1
          simp only [List.length_append, List.length_singleton]
          omega
        · intro k hk
          show k < s.sent + 1
          rcases List.mem_append.mp hk with hk | hk
          · exact Nat.lt_succ_of_lt (h3 k hk)
          · simp only [List.mem_singleton] at hk
            subst hk
            exact Nat.lt_succ_self _
        · refine List.pairwise_append.mpr ⟨h4, by simp, ?_⟩
          intro a ha b hb
          simp only [List.mem_singleton] at hb
          subst hb
          exact h3 a ha
      · rw [if_neg hq] at hstep
        exact ⟨_, hstep.symm, h1, h2, fun k hk => Nat.lt_succ_of_lt (h3 k hk), h4⟩
    · rw [TrapState.step_unsubscribed s sig hsig, Option.some.injEq] at hstep
      exact ⟨_, hstep.symm, h1, h2, fun k hk => Nat.lt_succ_of_lt (h3 k hk), h4⟩
  | task t =>
    rcases t with _ | _ | t
    · rw [TrapState.step_caller, Option.some.injEq] at hstep
      exact ⟨s, hstep.symm, h1, h2, h3, h4⟩
    · rw [TrapState.step_loop] at hstep
      cases hr : s.running with
      | some k =>
        simp only [hr, Option.some.injEq] at hstep
        exact ⟨_, hstep.symm, h1, h2, h3, h4⟩
      | none =>
        cases hq : s.queue with
        | nil => simp [hr, hq] at hstep
        | cons k rest =>
          simp only [hr, hq, Option.some.injEq] at hstep
          refine ⟨_, hstep.symm, ?_, ?_, h3, h4⟩
          · show (s.invoked ++ [k]) ++ rest = s.accepted
            rw [← h1, hq]
            simp
          · show rest.length ≤ 1
            rw [hq] at h2
            simp only [List.length_cons] at h2
            omega
    · rw [TrapState.step_absent] at hstep
      cases hstep

/-- Every run of the process leads from a consistent trap state to a
consistent trap state. -/
theorem TrapState.run_consistent (evs : List Event) (s : TrapState) (q : Process)
    (hs : s.Consistent) (hrun : s.process.run evs = some q) :
    ∃ t : TrapState, q = t.process ∧ t.Consistent := by
  induction evs generalizing s with
  | nil =>
    simp only [Process.run, Option.some.injEq] at hrun
    exact ⟨s, hrun.symm, hs⟩
  | cons e es ih =>
    unfold Process.run at hrun
    cases hstep : s.process.step e with
    | none => simp [hstep] at hrun
    | some u =>
      simp only [hstep] at hrun
      obtain ⟨t, rfl, ht⟩ := TrapState.step_consistent s e u hs hstep
      exact ih t ht hrun

/-- A run over two event lists in a row is the run over the first followed
by the run over the second. -/
theorem Process.run_append (es fs : List Event) (p : Process) :
    p.run (es ++ fs) = (p.run es).bind (fun q => q.run fs) := by
  induction es generalizing p with
  | nil => simp [Process.run]
  | cons e es ih =>
    simp only [List.cons_append, Process.run]
    cases p.step e with
    | none => rfl
    | some q => exact ih q

/-- The waiting range loop handles the queued signals one after the other,
oldest first. -/
theorem TrapState.run_drain_waiting (q : List Nat) (sent : Nat) (accepted invoked : List Nat) :
    (⟨sent, q, accepted, none, invoked⟩ : TrapState).process.run
        ((q.map fun _ => [Event.task 1, Event.task 1]).flatten) =
      some (⟨sent, [], accepted, none, invoked ++ q⟩ : TrapState).process := by
  induction q generalizing invoked with
  | nil => simp [Process.run]
  | cons k rest ih =>
    have hone : (⟨sent, k :: rest, accepted, none, invoked⟩ : TrapState).process.run
        [Event.task 1, Event.task 1] =
          some (⟨sent, rest, accepted, none, invoked ++ [k]⟩ : TrapState).process := by
      simp [Process.run, TrapState.step_loop]
    rw [List.map_cons, List.flatten_cons, Process.run_append, hone, Option.some_bind, ih]
    simp

/-- Left alone, the range loop empties the channel: it can always go on, and
it ends waiting, every queued signal handed to the callback in order. -/
theorem TrapState.run_drain (s : TrapState) :
    s.process.run (drainEvents s.process 1) =
      some ({ s with queue := [], running := none,
                     invoked := s.invoked ++ s.queue } : TrapState).process := by
  obtain ⟨sent, queue, accepted, running, invoked⟩ := s
  cases running with
  | none =>
    have hev : drainEvents (⟨sent, queue, accepted, none, invoked⟩ : TrapState).process 1 =
        (queue.map fun _ => [Event.task 1, Event.task 1]).flatten := by
      simp [drainEvents, TrapState.process]
    rw [hev]
    exact TrapState.run_drain_waiting queue sent accepted invoked
  | some k =>
    have hev : drainEvents (⟨sent, queue, accepted, some k, invoked⟩ : TrapState).process 1 =
        [Event.task 1] ++ (queue.map fun _ => [Event.task 1, Event.task 1]).flatten := by
      simp [drainEvents, TrapState.process]
    have hone : (⟨sent, queue, accepted, some k, invoked⟩ : TrapState).process.run
        [Event.task 1] = some (⟨sent, queue, accepted, none, invoked⟩ : TrapState).process := by
      simp [Process.run, TrapState.step_loop]
    rw [hev, Process.run_append, hone, Option.some_bind]
    exact TrapState.run_drain_waiting queue sent accepted invoked

/-- Signals sent in succession, each after the previous callback invocation
has completed, are all accepted and all handed to the callback, in order. -/
theorem TrapState.run_signalsInSuccession (n sent : Nat) (accepted invoked : List Nat) :
    (⟨sent, [], accepted, none, invoked⟩ : TrapState).process.run (signalsInSuccession 1 n) =
      some (⟨sent + n, [], accepted ++ List.range' sent n, none,
        invoked ++ List.range' sent n⟩ : TrapState).process := by
  induction n generalizing sent accepted invoked with
  | zero => simp [signalsInSuccession, Process.run]
  | succ n ih =>
    have hone : (⟨sent, [], accepted, none, invoked⟩ : TrapState).process.run
        [Event.signal Signal.SIGHUP, Event.task 1, Event.task 1] =
          some (⟨sent + 1, [], accepted ++ [sent], none, invoked ++ [sent]⟩ :
            TrapState).process := by
      simp [Process.run, TrapState.step_loop, TrapState.step_SIGHUP]
    have hnext := ih (sent + 1) (accepted ++ [sent]) (invoked ++ [sent])
    unfold signalsInSuccession at hnext ⊢
    rw [List.replicate_succ, List.flatten_cons, Process.run_append, hone, Option.some_bind,
      hnext]
    simp [List.range'_succ, Nat.add_assoc, Nat.add_comm 1 n]

/-- C10: setupConfigReloadTrap makes the channel, registers it for the reload
signal, starts one new goroutine on the range loop and returns without
calling cli.reloadConfig and without changing the goroutines already there,
the caller among them. Once the trap is armed on the process at start, after
any run of signals and goroutine steps: the caller is still on its own code;
every invocation of cli.reloadConfig was made by the started goroutine,
number 1, never by the caller, number 0; the signals put on the queue are
exactly the ones handed to cli.reloadConfig followed by the ones still
queued, each once and in delivery order; the started goroutine left alone
hands every queued signal to the callback, so each delivered signal gets
exactly one invocation; and a signal other than the reload signal never
reaches the queue. Sending the reload signal n times in succession, each time
after the previous invocation has completed, gives exactly n invocations in
order, all on the started goroutine; for three signals they are those of
signals 0, 1, 2. -/
theorem setupConfigReloadTrap_once_per_signal :
    (∀ p : Process,
      (setupConfigReloadTrap p).invoked = p.invoked ∧
      (∀ t : Nat, t < p.tasks.length → (setupConfigReloadTrap p).tasks[t]? = p.tasks[t]?) ∧
      (setupConfigReloadTrap p).tasks[p.tasks.length]? =
        some (Goroutine.reloadLoop p.chans.length none) ∧
      (setupConfigReloadTrap p).tasks.length = p.tasks.length + 1 ∧
      (setupConfigReloadTrap p).chans[p.chans.length]? =
        some { capacity := 1, buffer := [], accepted := [] } ∧
      (setupConfigReloadTrap p).notify = p.notify ++ [(p.chans.length, Signal.SIGHUP)]) ∧
    (∀ (evs : List Event) (s : Process),
      (setupConfigReloadTrap Process.boot).run evs = some s →
        s.tasks[0]? = some Goroutine.main ∧
        (∀ inv ∈ s.invoked, inv.task = 1 ∧ inv.task ≠ 0) ∧
        (∀ sig : Signal, sig ≠ Signal.SIGHUP →
          s.step (Event.signal sig) = some { s with sent := s.sent + 1 }) ∧
        ∃ ch : Chan, s.chans = [ch] ∧
          s.invoked.map (fun inv => inv.signal) ++ ch.buffer = ch.accepted ∧
          ch.accepted.Pairwise (fun a b => a < b) ∧
          (∀ k ∈ ch.accepted, ch.accepted.count k = 1) ∧
          ∃ s' : Process, s.run (drainEvents s 1) = some s' ∧
            s'.invoked.map (fun inv => inv.signal) = ch.accepted ∧
            (∀ inv ∈ s'.invoked, inv.task = 1 ∧ inv.task ≠ 0) ∧
            s'.chans = [{ ch with buffer := [] }]) ∧
    (∀ n : Nat, (setupConfigReloadTrap Process.boot).run (signalsInSuccession 1 n) =
      some { chans := [{ capacity := 1, buffer := [], accepted := List.range n }]
             notify := [(0, Signal.SIGHUP)]
             tasks := [Goroutine.main, Goroutine.reloadLoop 0 none]
             sent := n
             invoked := (List.range n).map fun k => { signal := k, task := 1 } }) ∧
    (setupConfigReloadTrap Process.boot).run (signalsInSuccession 1 3) =
      some { chans := [{ capacity := 1, buffer := [], accepted := [0, 1, 2] }]
             notify := [(0, Signal.SIGHUP)]
             tasks := [Goroutine.main, Goroutine.reloadLoop 0 none]
             sent := 3
             invoked := [{ signal := 0, task := 1 }, { signal := 1, task := 1 },
               { signal := 2, task := 1 }] } := by
  refine ⟨?_, ?_, ?_, by decide⟩
  · intro p
    refine ⟨rfl, ?_, ?_, ?_, ?_, rfl⟩
    · intro t ht
      simp [setupConfigReloadTrap, List.getElem?_append_left ht]
    · simp [setupConfigReloadTrap]
    · simp [setupConfigReloadTrap]
    · simp [setupConfigReloadTrap]
  · intro evs s hrun
    rw [setupConfigReloadTrap_boot] at hrun
    have hinit : (⟨0, [], [], none, []⟩ : TrapState).Consistent := by decide
    obtain ⟨t, rfl, h1, _, _, h4⟩ := TrapState.run_consistent evs _ s hinit hrun
    have hnodup : t.accepted.Nodup := h4.imp (fun h => Nat.ne_of_lt h)
    have hsig : ∀ (invoked : List Nat),
        (invoked.map fun k => ({ signal := k, task := 1 } : Invocation)).map
          (fun inv => inv.signal) = invoked := by
      intro invoked
      simp [List.map_map, Function.comp_def]
    have htask : ∀ (invoked : List Nat),
        ∀ inv ∈ invoked.map (fun k => ({ signal := k, task := 1 } : Invocation)),
          inv.task = 1 ∧ inv.task ≠ 0 := by
      intro invoked inv hinv
      obtain ⟨k, _, rfl⟩ := List.mem_map.mp hinv
      exact ⟨rfl, Nat.succ_ne_zero 0⟩
    refine ⟨rfl, htask t.invoked, ?_, _, rfl, ?_, h4,
      fun k hk => List.count_eq_one_of_mem hnodup hk, _, TrapState.run_drain t, ?_,
      htask _, rfl⟩
    · intro sig hne
      exact TrapState.step_unsubscribed t sig hne
    · show (t.process.invoked.map fun inv => inv.signal) ++ t.queue = t.accepted
      rw [← h1]
      exact congrArg (· ++ t.queue) (hsig t.invoked)
    · show ((t.invoked ++ t.queue).map fun k => ({ signal := k, task := 1 } : Invocation)).map
        (fun inv => inv.signal) = t.accepted
      rw [hsig, h1]
  · intro n
    rw [setupConfigReloadTrap_boot]
    have := TrapState.run_signalsInSuccession n 0 [] []
    simp only [List.nil_append, Nat.zero_add] at this
    rw [this, List.range_eq_range']
    rfl

/-- The statement about arbitrary runs at a run where an unrelated signal is
raised, a reload signal arrives while the callback is still running and a
further one is dropped. -/
theorem setupConfigReloadTrap_once_per_signal_witness :
    (setupConfigReloadTrap Process.boot).run
        [Event.signal Signal.SIGHUP, Event.signal Signal.SIGUSR2, Event.task 1,
          Event.signal Signal.SIGHUP, Event.signal Signal.SIGHUP, Event.task 0] =
      some (⟨4, [2], [0, 2], some 0, [0]⟩ : TrapState).process ∧
    ((⟨4, [2], [0, 2], some 0, [0]⟩ : TrapState).process.tasks[0]? = some Goroutine.main ∧
      (∀ inv ∈ (⟨4, [2], [0, 2], some 0, [0]⟩ : TrapState).process.invoked,
        inv.task = 1 ∧ inv.task ≠ 0) ∧
      (∀ sig : Signal, sig ≠ Signal.SIGHUP →
        (⟨4, [2], [0, 2], some 0, [0]⟩ : TrapState).process.step (Event.signal sig) =
          some { (⟨4, [2], [0, 2], some 0, [0]⟩ : TrapState).process with sent := 4 + 1 }) ∧
      ∃ ch : Chan, (⟨4, [2], [0, 2], some 0, [0]⟩ : TrapState).process.chans = [ch] ∧
        (⟨4, [2], [0, 2], some 0, [0]⟩ : TrapState).process.invoked.map
          (fun inv => inv.signal) ++ ch.buffer = ch.accepted ∧
        ch.accepted.Pairwise (fun a b => a < b) ∧
        (∀ k ∈ ch.accepted, ch.accepted.count k = 1) ∧
        ∃ s' : Process,
          (⟨4, [2], [0, 2], some 0, [0]⟩ : TrapState).process.run
            (drainEvents (⟨4, [2], [0, 2], some 0, [0]⟩ : TrapState).process 1) = some s' ∧
          s'.invoked.map (fun inv => inv.signal) = ch.accepted ∧
          (∀ inv ∈ s'.invoked, inv.task = 1 ∧ inv.task ≠ 0) ∧
          s'.chans = [{ ch with buffer := [] }]) :=
  ⟨by decide,
    setupConfigReloadTrap_once_per_signal.2.1
      [Event.signal Signal.SIGHUP, Event.signal Signal.SIGUSR2, Event.task 1,
        Event.signal Signal.SIGHUP, Event.signal Signal.SIGHUP, Event.task 0]
      (⟨4, [2], [0, 2], some 0, [0]⟩ : TrapState).process (by decide)⟩

end Dockerd
